import Mathlib

/-!
Verification of the chaq-sdfgen signed-distance-field generator.

The C sources are shallowly embedded here.  IEEE-754 `float` values are
modelled exactly by the inductive `Fl α` (a finite value drawn from a linear
ordered field, `+inf`, `-inf`, or `nan`); all arithmetic the program performs
on the inputs considered in the theorems below is exact in `float`, so the
field `ℚ` (respectively `ℝ` after the square-root stage) is a faithful carrier.
Buffers are modelled as total functions `ℕ → _`; the contents of
malloc-allocated scratch buffers are passed in explicitly as parameters, since
the program reads some cells it never wrote (see `dist_transform_1d`).
C loops are modelled by structurally recursive functions with an explicit
fuel argument; every top-level entry point supplies fuel that dominates the
loop bound, so the fuel-exhaustion branches are unreachable.
-/

namespace ChaqSdf

/-- Model of an IEEE-754 floating-point datum: a finite value in a linear
ordered field, positive infinity, negative infinity, or NaN. -/
inductive Fl (α : Type) where
  | fin (x : α)
  | inf
  | ninf
  | nan
deriving DecidableEq

namespace Fl

variable {α : Type} [LinearOrderedField α]

/-- C `isinf`: true exactly on the two infinities. -/
def isinf : Fl α → Bool
  | inf => true
  | ninf => true
  | _ => false

/-- A datum holding a finite value. -/
def isFin (a : Fl α) : Prop := ∃ x, a = fin x

/-- IEEE negation. -/
def neg : Fl α → Fl α
  | fin x => fin (-x)
  | inf => ninf
  | ninf => inf
  | nan => nan

/-- IEEE addition (`inf + ninf = nan`, NaN propagates). -/
def add : Fl α → Fl α → Fl α
  | nan, _ => nan
  | _, nan => nan
  | fin x, fin y => fin (x + y)
  | inf, ninf => nan
  | ninf, inf => nan
  | inf, _ => inf
  | _, inf => inf
  | ninf, _ => ninf
  | _, ninf => ninf

/-- IEEE subtraction. -/
def sub (a b : Fl α) : Fl α := add a (neg b)

/-- IEEE multiplication (`0 * inf = nan`, NaN propagates). -/
def mul : Fl α → Fl α → Fl α
  | nan, _ => nan
  | _, nan => nan
  | fin x, fin y => fin (x * y)
  | inf, fin y => if 0 < y then inf else if y < 0 then ninf else nan
  | fin x, inf => if 0 < x then inf else if x < 0 then ninf else nan
  | ninf, fin y => if 0 < y then ninf else if y < 0 then inf else nan
  | fin x, ninf => if 0 < x then ninf else if x < 0 then inf else nan
  | inf, inf => inf
  | inf, ninf => ninf
  | ninf, inf => ninf
  | ninf, ninf => inf

/-- IEEE division (division by `+0` gives a signed infinity, `0/0 = nan`;
the model has no negative zero). -/
def div : Fl α → Fl α → Fl α
  | nan, _ => nan
  | _, nan => nan
  | fin x, fin y =>
      if y = 0 then (if x = 0 then nan else if 0 < x then inf else ninf)
      else fin (x / y)
  | fin _, inf => fin 0
  | fin _, ninf => fin 0
  | inf, fin y => if 0 ≤ y then inf else ninf
  | ninf, fin y => if 0 ≤ y then ninf else inf
  | inf, _ => nan
  | ninf, _ => nan

/-- IEEE strict less-than (false whenever an operand is NaN). -/
def blt : Fl α → Fl α → Bool
  | nan, _ => false
  | _, nan => false
  | ninf, ninf => false
  | ninf, _ => true
  | inf, _ => false
  | fin x, fin y => decide (x < y)
  | fin _, inf => true
  | fin _, ninf => false

/-- IEEE less-or-equal (false whenever an operand is NaN). -/
def ble : Fl α → Fl α → Bool
  | nan, _ => false
  | _, nan => false
  | ninf, _ => true
  | _, inf => true
  | inf, _ => false
  | fin x, fin y => decide (x ≤ y)
  | fin _, ninf => false

end Fl

/-- Pointwise update of a buffer modelled as a total function. -/
def upd {β : Type} (f : ℕ → β) (i : ℕ) (x : β) : ℕ → β :=
  fun j => if j = i then x else f j

section DistanceTransform

variable {α : Type} [LinearOrderedField α]

/-- Source: df.c, `parabola_intersect`.  Intersection abscissa of the
parabolas rooted at indices `p` and `q` of the row `f`:
`((f[q] - f[p]) + (q² - p²)) / (2·(q - p))`, in `float` arithmetic. -/
def parabola_intersect (f : ℕ → Fl α) (p q : ℕ) : Fl α :=
  Fl.div
    (Fl.add (Fl.sub (f q) (f p)) (Fl.fin ((q : α) * (q : α) - (p : α) * (p : α))))
    (Fl.fin (2 * ((q : α) - (p : α))))

/-- Source: df.c line 28, `while (isinf(f.start[offset]) && offset < N) ++offset;`.
The C `&&` evaluates `isinf(f.start[offset])` — a read of the row at index
`offset` — before the bound check, so the terminating evaluation also reads.
Returns the final `offset` together with the list of row indices read.
`fuel` dominates the iteration count (the caller passes `N + 1`). -/
def findOffset (f : ℕ → Fl α) (N : ℕ) : ℕ → ℕ → ℕ × List ℕ
  | 0, off => (off, [])
  | fuel + 1, off =>
      if (f off).isinf ∧ off < N then
        let r := findOffset f N fuel (off + 1)
        (r.1, off :: r.2)
      else (off, [off])

/-- State of Part 1 of `dist_transform_1d`: the number `k` of recorded break
points, the vertex buffer `v`, the vertex-height buffer `h`, the break-point
buffer `z`, and (instrumentation) the arguments of every `parabola_intersect`
call made so far, in order. -/
structure P1St (α : Type) where
  k : ℕ
  v : ℕ → ℕ
  h : ℕ → Fl α
  z : ℕ → Fl α
  calls : List (ℕ × ℕ)

/-- Source: df.c lines 46-49, the back-up loop
`while (k > 0 && s <= z.start[k-1]) { --k; s = parabola_intersect(f, v.start[k], q); }`,
structurally recursive on `k`. -/
def backup (f : ℕ → Fl α) (vb : ℕ → ℕ) (zb : ℕ → Fl α) (q : ℕ) :
    ℕ → Fl α → List (ℕ × ℕ) → ℕ × Fl α × List (ℕ × ℕ)
  | 0, s, calls => (0, s, calls)
  | k + 1, s, calls =>
      if Fl.ble s (zb k) then
        backup f vb zb q k (parabola_intersect f (vb k) q) (calls ++ [(vb k, q)])
      else (k + 1, s, calls)

/-- Source: df.c lines 37-58, the Part 1 loop over `q`.  `fuel` dominates the
remaining iteration count (the caller passes `N`). -/
def part1 (f : ℕ → Fl α) (N : ℕ) : ℕ → ℕ → P1St α → P1St α
  | 0, _, st => st
  | fuel + 1, q, st =>
      if q < N then
        if (f q).isinf then
          part1 f N fuel (q + 1) st
        else
          let s0 := parabola_intersect f (st.v st.k) q
          let c0 := st.calls ++ [(st.v st.k, q)]
          let r := backup f st.v st.z q st.k s0 c0
          let k1 := r.1
          let z1 := upd st.z k1 r.2.1
          let v1 := upd st.v (k1 + 1) q
          let h1 := upd st.h (k1 + 1) (f q)
          part1 f N fuel (q + 1) ⟨k1 + 1, v1, h1, z1, r.2.2⟩
      else st

/-- Source: df.c line 64, `while (j < k && z.start[j] < (float)q) ++j;`,
structurally recursive with fuel (the caller passes `k - j`). -/
def seekJ (zb : ℕ → Fl α) (k q : ℕ) : ℕ → ℕ → ℕ
  | 0, j => j
  | fuel + 1, j =>
      if j < k ∧ Fl.blt (zb j) (Fl.fin (q : α)) then seekJ zb k q fuel (j + 1) else j

/-- Source: df.c lines 61-69, Part 2: populate `f` from the lower envelope.
`fuel` dominates the remaining iteration count (the caller passes `N`). -/
def part2 (N : ℕ) (vb : ℕ → ℕ) (hb zb : ℕ → Fl α) (k : ℕ) :
    ℕ → ℕ → ℕ → (ℕ → Fl α) → (ℕ → Fl α)
  | 0, _, _, f => f
  | fuel + 1, q, j, f =>
      if q < N then
        let j1 := seekJ zb k q (k - j) j
        let d : α := (q : α) - ((vb j1 : ℕ) : α)
        let f1 := upd f q (Fl.add (Fl.fin (d * d)) (hb j1))
        part2 N vb hb zb k fuel (q + 1) j1 f1
      else f

/-- Initial contents of the per-row scratch buffers `v` (vertices), `h`
(vertex heights) and `z` (break points).  The C program obtains them from
`malloc` and never initializes `h[0]`, so the initial contents are part of
the model's input. -/
structure Scratch (α : Type) where
  v : ℕ → ℕ
  h : ℕ → Fl α
  z : ℕ → Fl α

/-- Result of the 1-D routine: the final row buffer, the row indices read by
the initial offset scan, and the arguments of every `parabola_intersect`
call, in order. -/
structure D1Res (α : Type) where
  f : ℕ → Fl α
  scanReads : List ℕ
  calls : List (ℕ × ℕ)

/-- Source: df.c lines 21-70, `dist_transform_1d`.  Faithful model of the
current source: `v.start[0] = offset` is written, but `h.start[0]` is never
written, so Part 2 reads the uninitialized scratch cell `scr.h 0`. -/
def dist_transform_1d (f : ℕ → Fl α) (N : ℕ) (scr : Scratch α) : D1Res α :=
  if N ≤ 1 then ⟨f, [], []⟩
  else
    let r0 := findOffset f N (N + 1) 0
    let offset := r0.1
    if offset = N then ⟨f, r0.2, []⟩
    else
      let v0 := upd scr.v 0 offset
      let st := part1 f N (N - (offset + 1)) (offset + 1) ⟨0, v0, scr.h, scr.z, []⟩
      ⟨part2 N st.v st.h st.z st.k N 0 0 f, r0.2, st.calls⟩

/-- Row `y` of a `w`-wide row-major field, as the view
`{img + y*w, img + (y+1)*w}` of df.c's `dist_transform_axis`. -/
def rowOf (img : ℕ → Fl α) (w y : ℕ) : ℕ → Fl α := fun i => img (y * w + i)

/-- Source: df.c lines 74-95, `dist_transform_axis`: run the 1-D routine on
every row; each row has its own freshly malloc-ed scratch (`scr y`). -/
def dist_transform_axis (img : ℕ → Fl α) (w : ℕ) (scr : ℕ → Scratch α) :
    ℕ → Fl α :=
  fun i => (dist_transform_1d (rowOf img w (i / w)) w (scr (i / w))).f (i % w)

/-- Source: df.c lines 100-109, `transpose_cpy`: `dest[h*x + y] = src[y*w + x]`,
expressed from the destination index. -/
def transpose_cpy (src : ℕ → Fl α) (w h : ℕ) : ℕ → Fl α :=
  fun j => src ((j % h) * w + j / h)

end DistanceTransform

/-- The `sqrtf` of df.c's `transpose_cpy_sqrt`, from the exact-rational world
into the reals: NaN on negative arguments and on NaN, `+inf` on `+inf`. -/
noncomputable def fsqrt : Fl ℚ → Fl ℝ
  | .fin x => if x < 0 then .nan else .fin (Real.sqrt x)
  | .inf => .inf
  | .ninf => .nan
  | .nan => .nan

/-- Source: df.c lines 122-137, `dist_transform_2d`, up to but not including
the square root taken during the final transpose-back: 1-D transform of all
rows, transpose, 1-D transform of all rows of the transpose (the original
columns), then the index remapping of `transpose_cpy_sqrt(img, img_tpose, h, w)`.
`s1` and `s2` are the per-row scratch buffers of the two axis passes. -/
def dist_transform_2d_presqrt (img : ℕ → Fl ℚ) (w h : ℕ)
    (s1 s2 : ℕ → Scratch ℚ) : ℕ → Fl ℚ :=
  let a := dist_transform_axis img w s1
  let t := transpose_cpy a w h
  let b := dist_transform_axis t h s2
  fun j => b ((j % w) * h + j / w)

/-- Source: df.c lines 122-137, `dist_transform_2d`: the pre-square-root
pipeline followed by the element-wise `sqrtf` of `transpose_cpy_sqrt`. -/
noncomputable def dist_transform_2d (img : ℕ → Fl ℚ) (w h : ℕ)
    (s1 s2 : ℕ → Scratch ℚ) : ℕ → Fl ℝ :=
  fun j => fsqrt (dist_transform_2d_presqrt img w h s1 s2 j)

/-- All-zero scratch buffers (one concrete instance of the garbage the
program may find in freshly allocated memory). -/
def zeroScratch : Scratch ℚ := ⟨fun _ => 0, fun _ => Fl.fin 0, fun _ => Fl.fin 0⟩

/-- Scratch buffers whose float cells hold 1 everywhere (another concrete
instance of malloc garbage). -/
def oneScratch : Scratch ℚ := ⟨fun _ => 0, fun _ => Fl.fin 1, fun _ => Fl.fin 0⟩

/-- The 5-cell row `[+inf, +inf, 0, +inf, +inf]` of the spec's "single seed"
scenario (cells past the row stay at `+inf`). -/
def row5 : ℕ → Fl ℚ := fun i => if i = 2 then Fl.fin 0 else Fl.inf

/-- Output of a 1-D run as a list of row values. -/
def rowListOf (r : D1Res ℚ) (N : ℕ) : List (Fl ℚ) := (List.range N).map r.f

section PixelTransforms

variable {α : Type} [LinearOrderedField α] [FloorRing α]

/-- Source: sdfgen.c (unnamed/part_000) lines 56-66, `transform_img_to_bool`:
`bool pixel = test_above ? img_in[i*stride + offset] > threshold
                         : img_in[i*stride + offset] < threshold;`
with `threshold = 127`.  Bytes are modelled as naturals. -/
def transform_img_to_bool (img_in : ℕ → ℕ) (stride offset : ℕ)
    (test_above : Bool) : ℕ → Bool :=
  fun i =>
    if test_above then decide (127 < img_in (i * stride + offset))
    else decide (img_in (i * stride + offset) < 127)

/-- Source: sdfgen.c lines 69-76, `transform_bool_to_float`:
`float_out[i] = bool_in[i] == true_is_zero ? 0.f : INFINITY;`. -/
def transform_bool_to_float (bool_in : ℕ → Bool) (true_is_zero : Bool) :
    ℕ → Fl ℚ :=
  fun i => if bool_in i == true_is_zero then Fl.fin 0 else Fl.inf

/-- Source: sdfgen.c lines 102-110, `transform_float_sub` (the combiner):
`float bias = -1.f;`
`float val = float_by[i] > 0.f ? float_by[i] + bias : float_by[i];`
`float_dst[i] -= val;`. -/
def transform_float_sub (float_dst float_by : ℕ → Fl α) : ℕ → Fl α :=
  fun i =>
    let val :=
      if Fl.blt (Fl.fin 0) (float_by i) then Fl.add (float_by i) (Fl.fin (-1))
      else float_by i
    Fl.sub (float_dst i) val

/-- The C cast `(unsigned char)x` of a float.  On the program's reachable
values the float is finite in `[0, 255]`, where the cast truncates toward
zero, which for nonnegative values is the floor; the remaining cases are
undefined behaviour in C and are mapped to 0 here. -/
def castUChar (a : Fl α) : ℕ :=
  match a with
  | .fin x => (⌊x⌋).toNat
  | _ => 0

/-- Source: sdfgen.c lines 79-100, `transform_float_to_byte` (the quantizer):
clamp to `[s_min, s_max]` (upper bound first), then
`remap = (((v - s_min) * nd) / sn) + d_min` with `nd = 255`, `d_min = 0`,
then the `(unsigned char)` cast. -/
def transform_float_to_byte (float_in : ℕ → Fl α) (spread : ℕ)
    (asymmetric : Bool) : ℕ → ℕ :=
  fun i =>
    let s_min : α := if asymmetric then 0 else -(spread : α)
    let s_max : α := (spread : α)
    let nd : α := 255 - 0
    let sn : α := s_max - s_min
    let v0 := float_in i
    let v1 := if Fl.blt (Fl.fin s_max) v0 then Fl.fin s_max else v0
    let v2 := if Fl.blt v1 (Fl.fin s_min) then Fl.fin s_min else v1
    castUChar
      (Fl.add (Fl.div (Fl.mul (Fl.sub v2 (Fl.fin s_min)) (Fl.fin nd)) (Fl.fin sn))
        (Fl.fin 0))

end PixelTransforms

/-- Source: sdfgen.c `main`, lines 270-274: both sides are seeded from the
mask (`true_is_zero = true` for the inside field, `false` for the outside
field), both run through the 2-D EDT, and the combiner stores
`inside - val(outside)` into the inside buffer.  The four scratch-buffer
families of the two 2-D transforms are explicit inputs. -/
noncomputable def sdf_pipeline (mask : ℕ → Bool) (w h : ℕ)
    (sA sB sC sD : ℕ → Scratch ℚ) : ℕ → Fl ℝ :=
  transform_float_sub
    (dist_transform_2d (transform_bool_to_float mask true) w h sA sB)
    (dist_transform_2d (transform_bool_to_float mask false) w h sC sD)

/-- Source: sdfgen.c line 18, `enum FILETYPE`. -/
inductive FILETYPE where
  | FT_NONE
  | FT_PNG
  | FT_BMP
  | FT_JPG
  | FT_TGA
deriving DecidableEq

/-- C `strncmp(a, b, n) == 0` on null-terminated strings modelled as
null-free char lists (the end of the list is the terminator): walk up to `n`
characters, stopping early at a mismatch or when both strings end. -/
def strncmpEq : List Char → List Char → ℕ → Bool
  | _, _, 0 => true
  | [], [], _ + 1 => true
  | [], _ :: _, _ + 1 => false
  | _ :: _, [], _ + 1 => false
  | a :: as, b :: bs, n + 1 => if a = b then strncmpEq as bs n else false

/-- Source: sdfgen.c lines 112-119, `read_filetype`: scan the type table
`{"png", "bmp", "jpg", "tga"}` in order and return the first entry `t` with
`strncmp(string, t, 3) == 0`, else `FT_NONE`. -/
def read_filetype (s : List Char) : FILETYPE :=
  if strncmpEq s ['p', 'n', 'g'] 3 then .FT_PNG
  else if strncmpEq s ['b', 'm', 'p'] 3 then .FT_BMP
  else if strncmpEq s ['j', 'p', 'g'] 3 then .FT_JPG
  else if strncmpEq s ['t', 'g', 'a'] 3 then .FT_TGA
  else .FT_NONE

/-- Source: sdfgen.c lines 283-308 (`main`'s output switch): the format the
encoder is actually invoked with; `FT_NONE` falls through to the PNG writer. -/
def written_filetype : FILETYPE → FILETYPE
  | .FT_NONE => .FT_PNG
  | ft => ft

/-- Mathematical maximum on `Fl`, used to state the spec's combiner formula
`s = d_in - max(0, d_out - 1)` (this is the claim's formula, not the C code). -/
def fmax {α : Type} [LinearOrderedField α] (a b : Fl α) : Fl α :=
  if Fl.ble a b then b else a

/-- The combiner formula exactly as the specification states it:
`s = d_in - max(0, d_out - 1)`. -/
noncomputable def combine_spec (d_in d_out : Fl ℝ) : Fl ℝ :=
  Fl.sub d_in (fmax (Fl.fin 0) (Fl.sub d_out (Fl.fin 1)))

/-- The quantizer as the amended claim describes it: clamp the value into the
source range (`+inf` saturates to 255, `-inf` to 0), remap linearly onto
`[0, 255]`, truncate toward zero.  NaN input is undefined behaviour in the C
program and is mapped to 0 here. -/
def quantize_spec {α : Type} [LinearOrderedField α] [FloorRing α]
    (v : Fl α) (spread : ℕ) (asymmetric : Bool) : ℕ :=
  let s_min : α := if asymmetric then 0 else -(spread : α)
  let s_max : α := (spread : α)
  match v with
  | .fin x =>
      let c := min s_max (max s_min x)
      (⌊(c - s_min) * 255 / (s_max - s_min)⌋).toNat
  | .inf => 255
  | .ninf => 0
  | .nan => 0

/-- The spec-side reading of `read_filetype` for the C10 claim: the first of
png/bmp/jpg/tga whose three characters are a prefix of the string, else
`FT_NONE`. -/
def read_filetype_spec (s : List Char) : FILETYPE :=
  if List.isPrefixOf ['p', 'n', 'g'] s then .FT_PNG
  else if List.isPrefixOf ['b', 'm', 'p'] s then .FT_BMP
  else if List.isPrefixOf ['j', 'p', 'g'] s then .FT_JPG
  else if List.isPrefixOf ['t', 'g', 'a'] s then .FT_TGA
  else .FT_NONE

/-- The row that the (bug-free) 1-D transform would produce from `row5`:
the squared distances `[4, 1, 0, 1, 4]`. -/
def out1 : ℕ → Fl ℚ := fun i =>
  if i = 0 then Fl.fin 4 else if i = 1 then Fl.fin 1 else if i = 2 then Fl.fin 0
  else if i = 3 then Fl.fin 1 else if i = 4 then Fl.fin 4 else Fl.inf

/-- A 3-wide, 1-tall field seeded only at cell 2: `[+inf, +inf, 0]`. -/
def img3 : ℕ → Fl ℚ := fun i => if i = 2 then Fl.fin 0 else Fl.inf

/-- The 1x3 mask `[true, true, false]`: pixels 0 and 1 are inside. -/
def mask3 : ℕ → Bool := fun i => decide (i < 2)

/-- Well-formedness of one `parabola_intersect` call `(p, q)` on row `f`:
distinct arguments, both parabola heights finite, and a nonzero denominator
`2·(q - p)`. -/
def goodCall (f : ℕ → Fl ℚ) (pr : ℕ × ℕ) : Prop :=
  pr.1 ≠ pr.2 ∧ Fl.isFin (f pr.1) ∧ Fl.isFin (f pr.2) ∧
    2 * ((pr.2 : ℚ) - (pr.1 : ℚ)) ≠ 0

/-! ## Helper lemmas -/

section FlLemmas

variable {α : Type} [LinearOrderedField α]

@[simp] lemma blt_fin_fin (x y : α) :
    Fl.blt (Fl.fin x) (Fl.fin y) = decide (x < y) := rfl

@[simp] lemma blt_fin_inf (x : α) : Fl.blt (Fl.fin x) Fl.inf = true := rfl

@[simp] lemma blt_fin_ninf (x : α) : Fl.blt (Fl.fin x) Fl.ninf = false := rfl

@[simp] lemma blt_inf_fin (x : α) : Fl.blt Fl.inf (Fl.fin x) = false := rfl

@[simp] lemma blt_ninf_fin (x : α) : Fl.blt Fl.ninf (Fl.fin x) = true := rfl

@[simp] lemma ble_fin_fin (x y : α) :
    Fl.ble (Fl.fin x) (Fl.fin y) = decide (x ≤ y) := rfl

@[simp] lemma ble_fin_inf (x : α) : Fl.ble (Fl.fin x) Fl.inf = true := rfl

@[simp] lemma ble_fin_ninf (x : α) : Fl.ble (Fl.fin x) Fl.ninf = false := rfl

@[simp] lemma ble_ninf_fin (x : α) : Fl.ble Fl.ninf (Fl.fin x) = true := rfl

@[simp] lemma ble_inf_fin (x : α) : Fl.ble Fl.inf (Fl.fin x) = false := rfl

@[simp] lemma add_fin_fin (x y : α) :
    Fl.add (Fl.fin x) (Fl.fin y) = Fl.fin (x + y) := rfl

@[simp] lemma add_inf_fin (x : α) : Fl.add Fl.inf (Fl.fin x) = Fl.inf := rfl

@[simp] lemma add_fin_inf (x : α) : Fl.add (Fl.fin x) Fl.inf = Fl.inf := rfl

@[simp] lemma add_ninf_fin (x : α) : Fl.add Fl.ninf (Fl.fin x) = Fl.ninf := rfl

@[simp] lemma add_fin_ninf (x : α) : Fl.add (Fl.fin x) Fl.ninf = Fl.ninf := rfl

@[simp] lemma neg_fin (x : α) : Fl.neg (Fl.fin x) = Fl.fin (-x) := rfl

@[simp] lemma neg_inf : Fl.neg (Fl.inf : Fl α) = Fl.ninf := rfl

@[simp] lemma neg_ninf : Fl.neg (Fl.ninf : Fl α) = Fl.inf := rfl

@[simp] lemma sub_fin_fin (x y : α) :
    Fl.sub (Fl.fin x) (Fl.fin y) = Fl.fin (x - y) := by
  show Fl.fin (x + -y) = Fl.fin (x - y)
  rw [← sub_eq_add_neg]

@[simp] lemma sub_fin_inf (x : α) : Fl.sub (Fl.fin x) Fl.inf = Fl.ninf := rfl

@[simp] lemma sub_fin_ninf (x : α) : Fl.sub (Fl.fin x) Fl.ninf = Fl.inf := rfl

@[simp] lemma sub_inf_fin (x : α) : Fl.sub Fl.inf (Fl.fin x) = Fl.inf := rfl

@[simp] lemma sub_ninf_fin (x : α) : Fl.sub Fl.ninf (Fl.fin x) = Fl.ninf := rfl

@[simp] lemma mul_fin_fin (x y : α) :
    Fl.mul (Fl.fin x) (Fl.fin y) = Fl.fin (x * y) := rfl

lemma div_fin_fin (x y : α) (h : y ≠ 0) :
    Fl.div (Fl.fin x) (Fl.fin y) = Fl.fin (x / y) := by
  simp [Fl.div, h]

end FlLemmas

section FlLemmasPlain

variable {α : Type}

@[simp] lemma isinf_fin (x : α) : (Fl.fin x).isinf = false := rfl

@[simp] lemma isinf_inf : (Fl.inf : Fl α).isinf = true := rfl

@[simp] lemma isinf_ninf : (Fl.ninf : Fl α).isinf = true := rfl

@[simp] lemma isinf_nan : (Fl.nan : Fl α).isinf = false := rfl

end FlLemmasPlain

/-- With zero-initialized scratch the 1-D routine maps `row5` to the expected
squared distances `[4, 1, 0, 1, 4]`. -/
lemma dist1d_row5_list :
    rowListOf (dist_transform_1d row5 5 zeroScratch) 5 =
      [Fl.fin 4, Fl.fin 1, Fl.fin 0, Fl.fin 1, Fl.fin 4] := by
  norm_num [rowListOf, dist_transform_1d, row5, zeroScratch, findOffset, part1,
    part2, seekJ, backup, parabola_intersect, upd, Fl.isinf, Fl.add, Fl.sub,
    Fl.neg, Fl.div, Fl.blt, Fl.ble, List.range_succ]

/-- The full row buffer after one zero-scratch run on `row5` is `out1`. -/
lemma dist1d_row5_fun : (dist_transform_1d row5 5 zeroScratch).f = out1 := by
  funext i
  rcases i with _ | _ | _ | _ | _ | i <;>
    norm_num [out1, dist_transform_1d, row5, zeroScratch, findOffset, part1,
      part2, seekJ, backup, parabola_intersect, upd, Fl.isinf, Fl.add, Fl.sub,
      Fl.neg, Fl.div, Fl.blt, Fl.ble] <;>
    split_ifs <;> first | rfl | omega

/-- A second zero-scratch run, on the squared distances `[4, 1, 0, 1, 4]`,
produces `[2, 1, 0, 1, 2]`: the lower envelope of those parabolas is lower
than the row itself. -/
lemma dist1d_out1_list :
    rowListOf (dist_transform_1d out1 5 zeroScratch) 5 =
      [Fl.fin 2, Fl.fin 1, Fl.fin 0, Fl.fin 1, Fl.fin 2] := by
  norm_num [rowListOf, dist_transform_1d, out1, zeroScratch, findOffset, part1,
    part2, seekJ, backup, parabola_intersect, upd, Fl.isinf, Fl.add, Fl.sub,
    Fl.neg, Fl.div, Fl.blt, Fl.ble, List.range_succ]

/-- `strncmp(s, t, 3) == 0` for a three-character table entry `t` is exactly
"`t` is a prefix of `s`". -/
lemma strncmpEq_three (s : List Char) (a b c : Char) :
    strncmpEq s [a, b, c] 3 = List.isPrefixOf [a, b, c] s := by
  rcases s with _ | ⟨x, _ | ⟨y, _ | ⟨z, s⟩⟩⟩
  · simp [strncmpEq, List.isPrefixOf]
  · by_cases hx : x = a
    · subst hx
      simp [strncmpEq, List.isPrefixOf]
    · have hb1 : (a == x) = false := beq_eq_false_iff_ne.mpr (Ne.symm hx)
      simp [strncmpEq, List.isPrefixOf, hx, hb1]
  · by_cases hx : x = a
    · subst hx
      by_cases hy : y = b
      · subst hy
        simp [strncmpEq, List.isPrefixOf]
      · have hb2 : (b == y) = false := beq_eq_false_iff_ne.mpr (Ne.symm hy)
        simp [strncmpEq, List.isPrefixOf, hy, hb2]
    · have hb1 : (a == x) = false := beq_eq_false_iff_ne.mpr (Ne.symm hx)
      simp [strncmpEq, List.isPrefixOf, hx, hb1]
  · by_cases hx : x = a
    · subst hx
      by_cases hy : y = b
      · subst hy
        by_cases hz : z = c
        · subst hz
          simp [strncmpEq, List.isPrefixOf]
        · have hb3 : (c == z) = false := beq_eq_false_iff_ne.mpr (Ne.symm hz)
          simp [strncmpEq, List.isPrefixOf, hz, hb3]
      · have hb2 : (b == y) = false := beq_eq_false_iff_ne.mpr (Ne.symm hy)
        simp [strncmpEq, List.isPrefixOf, hy, hb2]
    · have hb1 : (a == x) = false := beq_eq_false_iff_ne.mpr (Ne.symm hx)
      simp [strncmpEq, List.isPrefixOf, hx, hb1]

/-! ## Claim C1 -/

/-- Claim C1, counterexample: the thresholder does not compute
`(byte > 127) XOR invert`.  At byte value exactly 127 with the invert flag
set (`test_above = false`) the code classifies the pixel as outside
(`mask = false`), while the claimed XOR formula yields `true`. -/
theorem C1_counterexample :
    transform_img_to_bool (fun _ => 127) 2 1 false 0 = false ∧
      xor (decide ((127 : ℕ) < 127)) true = true := by
  constructor
  · decide
  · decide

/-- Claim C1, amended: with `test_above = !invert` as wired in `main`, the
thresholder agrees with `(byte > 127) XOR invert` at every byte other than
127, and classifies a byte equal to exactly 127 as outside (mask `false`)
regardless of the invert flag. -/
theorem C1_theorem (img : ℕ → ℕ) (stride offset : ℕ) (invert : Bool) (i : ℕ) :
    (img (i * stride + offset) ≠ 127 →
      transform_img_to_bool img stride offset (!invert) i =
        xor (decide (127 < img (i * stride + offset))) invert) ∧
    (img (i * stride + offset) = 127 →
      transform_img_to_bool img stride offset (!invert) i = false) := by
  constructor
  · intro hne
    cases invert
    · simp [transform_img_to_bool]
    · have hcode : transform_img_to_bool img stride offset (!true) i =
          decide (img (i * stride + offset) < 127) := by
        simp [transform_img_to_bool]
      rw [hcode, Bool.xor_true, ← decide_not, decide_eq_decide]
      omega
  · intro he
    cases invert <;>
      simp [transform_img_to_bool, he]

/-- Claim C1, witness: the amended theorem applied at byte 200 without
inversion. -/
theorem C1_witness :
    ((fun _ : ℕ => 200) (0 * 2 + 1) : ℕ) ≠ 127 ∧
      transform_img_to_bool (fun _ => 200) 2 1 (!false) 0 =
        xor (decide (127 < (fun _ : ℕ => 200) (0 * 2 + 1))) false :=
  ⟨by decide, (C1_theorem (fun _ => 200) 2 1 false 0).1 (by decide)⟩

/-! ## Claim C3 -/

/-- Claim C3, code bug: on the row `[+inf, +inf, 0, +inf, +inf]` the routine
does not produce the claimed `[4, 1, 0, 1, 4]`.  `dist_transform_1d` never
writes `h.start[0]`, and Part 2 adds the uninitialized cell to every pixel of
the first envelope segment: with malloc garbage `h[0] = 1` the output is
`[5, 2, 1, 2, 5]`. -/
theorem C3_evaluation :
    rowListOf (dist_transform_1d row5 5 oneScratch) 5 =
        [Fl.fin 5, Fl.fin 2, Fl.fin 1, Fl.fin 2, Fl.fin 5] ∧
      rowListOf (dist_transform_1d row5 5 oneScratch) 5 ≠
        [Fl.fin 4, Fl.fin 1, Fl.fin 0, Fl.fin 1, Fl.fin 4] := by
  have h : rowListOf (dist_transform_1d row5 5 oneScratch) 5 =
      [Fl.fin 5, Fl.fin 2, Fl.fin 1, Fl.fin 2, Fl.fin 5] := by
    norm_num [rowListOf, dist_transform_1d, row5, oneScratch, findOffset,
      part1, part2, seekJ, backup, parabola_intersect, upd, Fl.isinf, Fl.add,
      Fl.sub, Fl.neg, Fl.div, Fl.blt, Fl.ble, List.range_succ]
  refine ⟨h, ?_⟩
  rw [h]
  simp only [ne_eq, List.cons.injEq, Fl.fin.injEq]
  norm_num

/-! ## Claim C5 -/

/-- Claim C5, code bug: on the all-infinity row of length 2 the routine does
return the row unchanged, but the offset-scan loop condition
`isinf(f.start[offset]) && offset < N` evaluates the read before the bound
check, so the scan reads indices 0, 1 and also 2 — one past the end of the
row. -/
theorem C5_evaluation :
    rowListOf (dist_transform_1d (fun _ => Fl.inf) 2 zeroScratch) 2 =
        [Fl.inf, Fl.inf] ∧
      (dist_transform_1d (fun _ => (Fl.inf : Fl ℚ)) 2 zeroScratch).scanReads =
        [0, 1, 2] ∧
      2 ∈ (dist_transform_1d (fun _ => (Fl.inf : Fl ℚ)) 2 zeroScratch).scanReads ∧
      ¬ (2 : ℕ) < 2 := by
  refine ⟨?_, ?_, ?_, by omega⟩ <;>
    norm_num [rowListOf, dist_transform_1d, zeroScratch, findOffset, Fl.isinf,
      List.range_succ]

/-! ## Claim C8 -/

/-- The offset scan stops at an index that is at most `N`, and if it stops
strictly before `N` then it stopped on a non-infinite entry. -/
lemma findOffset_spec (f : ℕ → Fl ℚ) (N : ℕ) :
    ∀ fuel off, off ≤ N → N + 1 ≤ fuel + off →
      (findOffset f N fuel off).1 ≤ N ∧
        ((findOffset f N fuel off).1 < N →
          (f (findOffset f N fuel off).1).isinf = false) := by
  intro fuel
  induction fuel with
  | zero =>
      intro off h1 h2
      exfalso
      omega
  | succ fuel ih =>
      intro off h1 h2
      by_cases hc : (f off).isinf = true ∧ off < N
      · simp only [findOffset, if_pos hc]
        exact ih (off + 1) hc.2 (by omega)
      · simp only [findOffset, if_neg hc]
        refine ⟨h1, fun hlt => ?_⟩
        rcases Decidable.not_and_iff_or_not.mp hc with h | h
        · exact Bool.not_eq_true _ ▸ (eq_false_of_ne_true h)
        · exact absurd hlt h

/-- Through the back-up loop, every recorded `parabola_intersect` call is
well-formed, and `k` does not increase. -/
lemma backup_good (f : ℕ → Fl ℚ) (vb : ℕ → ℕ) (zb : ℕ → Fl ℚ) (q : ℕ) :
    ∀ (k : ℕ) (s : Fl ℚ) (calls : List (ℕ × ℕ)),
      (∀ i, i ≤ k → vb i < q ∧ Fl.isFin (f (vb i))) →
      Fl.isFin (f q) →
      (∀ pr ∈ calls, goodCall f pr) →
      (backup f vb zb q k s calls).1 ≤ k ∧
        ∀ pr ∈ (backup f vb zb q k s calls).2.2, goodCall f pr := by
  intro k
  induction k with
  | zero =>
      intro s calls _ _ hc
      exact ⟨le_refl 0, hc⟩
  | succ k ih =>
      intro s calls hv hq hc
      by_cases hb : Fl.ble s (zb k) = true
      · simp only [backup, if_pos hb]
        have hvk := hv k (Nat.le_succ k)
        have hgood : goodCall f (vb k, q) := by
          refine ⟨Nat.ne_of_lt hvk.1, hvk.2, hq, ?_⟩
          have hlt : ((vb k : ℚ)) < (q : ℚ) := by exact_mod_cast hvk.1
          exact mul_ne_zero two_ne_zero (sub_ne_zero.mpr (ne_of_gt hlt))
        have hr := ih (parabola_intersect f (vb k) q) (calls ++ [(vb k, q)])
          (fun i hi => hv i (Nat.le_succ_of_le hi)) hq
          (by
            intro pr hpr
            rcases List.mem_append.mp hpr with h | h
            · exact hc pr h
            · rcases List.mem_singleton.mp h with rfl
              exact hgood)
        exact ⟨Nat.le_succ_of_le hr.1, hr.2⟩
      · simp only [backup, if_neg hb]
        exact ⟨le_refl _, hc⟩

/-- Through Part 1, every recorded `parabola_intersect` call is well-formed:
the vertices recorded so far are strictly below the current column and hold
finite heights. -/
lemma part1_good (f : ℕ → Fl ℚ) (N : ℕ)
    (hnan : ∀ i, i < N → f i ≠ Fl.nan) :
    ∀ (fuel q : ℕ) (st : P1St ℚ),
      (∀ i, i ≤ st.k → st.v i < q ∧ Fl.isFin (f (st.v i))) →
      (∀ pr ∈ st.calls, goodCall f pr) →
      ∀ pr ∈ (part1 f N fuel q st).calls, goodCall f pr := by
  intro fuel
  induction fuel with
  | zero =>
      intro q st _ hc
      exact hc
  | succ fuel ih =>
      intro q st hv hc
      by_cases hq : q < N
      · by_cases hinf : (f q).isinf = true
        · simp only [part1, if_pos hq, if_pos hinf]
          exact ih (q + 1) st
            (fun i hi => ⟨Nat.lt_succ_of_lt (hv i hi).1, (hv i hi).2⟩) hc
        · have hqfin : Fl.isFin (f q) := by
            rcases hfq : f q with x | _ | _ | _
            · exact ⟨x, rfl⟩
            · rw [hfq] at hinf
              exact absurd rfl hinf
            · rw [hfq] at hinf
              exact absurd rfl hinf
            · exact absurd hfq (hnan q hq)
          have hgood0 : goodCall f (st.v st.k, q) := by
            have hvk := hv st.k (le_refl _)
            refine ⟨Nat.ne_of_lt hvk.1, hvk.2, hqfin, ?_⟩
            have hlt : ((st.v st.k : ℚ)) < (q : ℚ) := by exact_mod_cast hvk.1
            exact mul_ne_zero two_ne_zero (sub_ne_zero.mpr (ne_of_gt hlt))
          have hbk := backup_good f st.v st.z q st.k
            (parabola_intersect f (st.v st.k) q)
            (st.calls ++ [(st.v st.k, q)])
            (fun i hi => hv i hi) hqfin
            (by
              intro pr hpr
              rcases List.mem_append.mp hpr with h | h
              · exact hc pr h
              · rcases List.mem_singleton.mp h with rfl
                exact hgood0)
          simp only [part1, if_pos hq, if_neg hinf]
          refine ih (q + 1)
            ⟨(backup f st.v st.z q st.k (parabola_intersect f (st.v st.k) q)
                (st.calls ++ [(st.v st.k, q)])).1 + 1,
              upd st.v _ q, upd st.h _ (f q), upd st.z _ _, _⟩
            ?_ hbk.2
          intro i hi
          simp only at hi
          by_cases hie : i =
            (backup f st.v st.z q st.k (parabola_intersect f (st.v st.k) q)
              (st.calls ++ [(st.v st.k, q)])).1 + 1
          · simp only [upd, hie, if_pos rfl]
            exact ⟨Nat.lt_succ_self q, hqfin⟩
          · have hile : i ≤ st.k := by
              have := hbk.1
              omega
            simp only [upd, if_neg hie]
            exact ⟨Nat.lt_succ_of_lt (hv i hile).1, (hv i hile).2⟩
      · simp only [part1, if_neg hq]
        exact hc

/-- Claim C8, confirmed: on any NaN-free input row, every
`parabola_intersect` call the 1-D routine makes has distinct arguments
`p ≠ q`, both `f[p]` and `f[q]` finite, and a nonzero denominator
`2·(q - p)` — no division by zero occurs (the only division in the routine
is the one in `parabola_intersect`). -/
theorem C8_theorem (f : ℕ → Fl ℚ) (N : ℕ) (scr : Scratch ℚ)
    (hnan : ∀ i, i < N → f i ≠ Fl.nan) :
    ∀ pr ∈ (dist_transform_1d f N scr).calls, goodCall f pr := by
  by_cases h1 : N ≤ 1
  · simp [dist_transform_1d, h1]
  · by_cases h2 : (findOffset f N (N + 1) 0).1 = N
    · simp [dist_transform_1d, h1, h2]
    · have hoff := findOffset_spec f N (N + 1) 0 (Nat.zero_le N) (by omega)
      have hofflt : (findOffset f N (N + 1) 0).1 < N :=
        lt_of_le_of_ne hoff.1 h2
      have hofffin : Fl.isFin (f (findOffset f N (N + 1) 0).1) := by
        have hni := hoff.2 hofflt
        rcases hfq : f (findOffset f N (N + 1) 0).1 with x | _ | _ | _
        · exact ⟨x, rfl⟩
        · rw [hfq] at hni
          exact absurd hni (by simp)
        · rw [hfq] at hni
          exact absurd hni (by simp)
        · exact absurd hfq (hnan _ hofflt)
      simp only [dist_transform_1d, if_neg h1, if_neg h2]
      apply part1_good f N hnan
      · intro i hi
        have hi0 : i = 0 := Nat.le_zero.mp hi
        subst hi0
        simp only [upd, if_pos rfl]
        exact ⟨Nat.lt_succ_self _, hofffin⟩
      · intro pr hpr
        exact absurd hpr (List.not_mem_nil pr)

/-- Claim C8, witness: the all-zeros row of length 3 (no NaNs) — the routine
makes the calls `(0,1)` and `(1,2)`, all well-formed. -/
theorem C8_witness :
    (∀ i, i < 3 → (fun _ : ℕ => Fl.fin (0 : ℚ)) i ≠ Fl.nan) ∧
      ∀ pr ∈ (dist_transform_1d (fun _ => Fl.fin (0 : ℚ)) 3
          zeroScratch).calls, goodCall (fun _ => Fl.fin (0 : ℚ)) pr :=
  ⟨fun i _ => by simp,
    C8_theorem (fun _ => Fl.fin (0 : ℚ)) 3 zeroScratch (fun i _ => by simp)⟩

/-! ## Claim C9 -/

/-- Claim C9, counterexample: the 1-D routine is not idempotent on the seeded
row `[+inf, +inf, 0, +inf, +inf]` (zero-initialized scratch both times):
applying it twice yields `[2, 1, 0, 1, 2]`, not the single-run output
`[4, 1, 0, 1, 4]`. -/
theorem C9_counterexample :
    rowListOf
        (dist_transform_1d (dist_transform_1d row5 5 zeroScratch).f 5
          zeroScratch) 5 ≠
      rowListOf (dist_transform_1d row5 5 zeroScratch) 5 := by
  rw [dist1d_row5_fun, dist1d_row5_list, dist1d_out1_list]
  simp only [ne_eq, List.cons.injEq, Fl.fin.injEq]
  norm_num

/-- Claim C9, amended: a single zero-scratch run on the seeded row
`[+inf, +inf, 0, +inf, +inf]` yields the squared distances `[4, 1, 0, 1, 4]`,
and a second run lowers them to `[2, 1, 0, 1, 2]` (the lower envelope of the
once-output's parabolas); applying the routine twice therefore differs from
applying it once on seeded input. -/
theorem C9_theorem :
    rowListOf (dist_transform_1d row5 5 zeroScratch) 5 =
        [Fl.fin 4, Fl.fin 1, Fl.fin 0, Fl.fin 1, Fl.fin 4] ∧
      rowListOf
          (dist_transform_1d (dist_transform_1d row5 5 zeroScratch).f 5
            zeroScratch) 5 =
        [Fl.fin 2, Fl.fin 1, Fl.fin 0, Fl.fin 1, Fl.fin 2] := by
  refine ⟨dist1d_row5_list, ?_⟩
  rw [dist1d_row5_fun]
  exact dist1d_out1_list

/-! ## Claim C2 -/

/-- Claim C2, counterexample: on the 1x3 mask `[true, true, false]` (zero
scratch garbage, so the distance fields are the bug-free ones `d_in = [0,0,1]`,
`d_out = [2,1,0]`), pixel 0 is inside yet the combiner gives it
`s = 0 - (2 - 1) = -1 < 0`, contradicting the claimed `s ≥ 0` for inside
pixels. -/
theorem C2_counterexample :
    mask3 0 = true ∧
      sdf_pipeline mask3 3 1 (fun _ => zeroScratch) (fun _ => zeroScratch)
          (fun _ => zeroScratch) (fun _ => zeroScratch) 0 = Fl.fin (-1) ∧
      (-1 : ℝ) < 0 := by
  refine ⟨by decide, ?_, by norm_num⟩
  have hin : dist_transform_2d_presqrt (transform_bool_to_float mask3 true) 3 1
      (fun _ => zeroScratch) (fun _ => zeroScratch) 0 = Fl.fin 0 := by
    show dist_transform_axis
        (transpose_cpy
          (dist_transform_axis (transform_bool_to_float mask3 true) 3
            (fun _ => zeroScratch)) 3 1) 1
        (fun _ => zeroScratch) ((0 % 3) * 1 + 0 / 3) = Fl.fin 0
    have ha : dist_transform_axis (transform_bool_to_float mask3 true) 3
        (fun _ => zeroScratch) 0 = Fl.fin 0 := by
      norm_num [dist_transform_axis, rowOf, transform_bool_to_float, mask3,
        dist_transform_1d, zeroScratch, findOffset, part1, part2, seekJ,
        backup, parabola_intersect, upd, Fl.isinf, Fl.add, Fl.sub, Fl.neg,
        Fl.div, Fl.blt, Fl.ble]
    norm_num [dist_transform_axis, rowOf, dist_transform_1d, transpose_cpy]
    exact ha
  have hout : dist_transform_2d_presqrt (transform_bool_to_float mask3 false) 3
      1 (fun _ => zeroScratch) (fun _ => zeroScratch) 0 = Fl.fin 4 := by
    show dist_transform_axis
        (transpose_cpy
          (dist_transform_axis (transform_bool_to_float mask3 false) 3
            (fun _ => zeroScratch)) 3 1) 1
        (fun _ => zeroScratch) ((0 % 3) * 1 + 0 / 3) = Fl.fin 4
    have ha : dist_transform_axis (transform_bool_to_float mask3 false) 3
        (fun _ => zeroScratch) 0 = Fl.fin 4 := by
      norm_num [dist_transform_axis, rowOf, transform_bool_to_float, mask3,
        dist_transform_1d, zeroScratch, findOffset, part1, part2, seekJ,
        backup, parabola_intersect, upd, Fl.isinf, Fl.add, Fl.sub, Fl.neg,
        Fl.div, Fl.blt, Fl.ble]
    norm_num [dist_transform_axis, rowOf, dist_transform_1d, transpose_cpy]
    exact ha
  have h4 : fsqrt (Fl.fin (4 : ℚ)) = Fl.fin 2 := by
    rw [fsqrt, if_neg (by norm_num)]
    rw [show ((4 : ℚ) : ℝ) = 2 ^ 2 by norm_num,
      Real.sqrt_sq (by norm_num : (0 : ℝ) ≤ 2)]
  have h0 : fsqrt (Fl.fin (0 : ℚ)) = Fl.fin 0 := by
    rw [fsqrt, if_neg (by norm_num)]
    norm_num
  simp only [sdf_pipeline, transform_float_sub, dist_transform_2d]
  rw [hin, hout, h4, h0]
  norm_num

/-- Claim C2, amended (sign convention reversed, stated over distance fields
with the properties the EDT feeds the combiner): if at inside pixels
`d_in = 0` and `d_out` is `0`, at least 1, or `+inf`, and at outside pixels
`d_out = 0` and `d_in` is nonnegative or `+inf`, then after the combiner every
inside pixel has `s[p] ≤ 0` and every outside pixel has `s[p] ≥ 0`. -/
theorem C2_theorem (mask : ℕ → Bool) (din dout : ℕ → Fl ℝ)
    (hin0 : ∀ p, mask p = true → din p = Fl.fin 0)
    (hout_in : ∀ p, mask p = true →
      dout p = Fl.inf ∨ ∃ x : ℝ, dout p = Fl.fin x ∧ (x = 0 ∨ 1 ≤ x))
    (hout0 : ∀ p, mask p = false → dout p = Fl.fin 0)
    (hin_out : ∀ p, mask p = false →
      din p = Fl.inf ∨ ∃ x : ℝ, din p = Fl.fin x ∧ 0 ≤ x) :
    ∀ p, (mask p = true →
        Fl.ble (transform_float_sub din dout p) (Fl.fin 0) = true) ∧
      (mask p = false →
        Fl.ble (Fl.fin 0) (transform_float_sub din dout p) = true) := by
  intro p
  constructor
  · intro hm
    simp only [transform_float_sub]
    rw [hin0 p hm]
    rcases hout_in p hm with h | ⟨x, hx, hcase⟩
    · rw [h]
      simp
    · rcases hcase with rfl | hge
      · rw [hx]
        norm_num
      · rw [hx]
        simp only [blt_fin_fin, decide_eq_true_eq]
        rw [if_pos (by linarith : (0 : ℝ) < x)]
        simp only [add_fin_fin, sub_fin_fin, ble_fin_fin, decide_eq_true_eq]
        linarith
  · intro hm
    simp only [transform_float_sub]
    rw [hout0 p hm]
    rcases hin_out p hm with h | ⟨x, hx, hge⟩
    · rw [h]
      simp
    · rw [hx]
      simp only [blt_fin_fin, decide_eq_true_eq]
      rw [if_neg (by norm_num : ¬ (0 : ℝ) < 0)]
      simp only [sub_fin_fin, ble_fin_fin, decide_eq_true_eq]
      linarith

/-- Claim C2, witness: the amended sign law applied to the constant fields
`mask = true`, `d_in = 0`, `d_out = 1`. -/
theorem C2_witness :
    ((fun _ : ℕ => true) 0 = true) ∧
      Fl.ble
          (transform_float_sub (fun _ => Fl.fin (0 : ℝ)) (fun _ => Fl.fin 1) 0)
          (Fl.fin 0) = true :=
  ⟨rfl,
    (C2_theorem (fun _ => true) (fun _ => Fl.fin 0) (fun _ => Fl.fin 1)
        (fun _ _ => rfl) (fun _ _ => Or.inr ⟨1, rfl, Or.inr le_rfl⟩)
        (fun _ h => Bool.noConfusion h) (fun _ h => Bool.noConfusion h) 0).1
      rfl⟩

/-! ## Claim C4 -/

/-- Claim C4, code bug: running the 2-D pipeline on the 3x1 field
`[+inf, +inf, 0]` with malloc garbage 1 in the uninitialized `h` scratch
leaves `sqrt(0 + h[0]) = sqrt(1) = 1` at the seed cell 2, not the claimed
`sqrt(min over seeds) = sqrt(0) = 0`: the uninitialized `h[0]` of
`dist_transform_1d` propagates through `dist_transform_2d`. -/
theorem C4_evaluation :
    dist_transform_2d img3 3 1 (fun _ => oneScratch) (fun _ => oneScratch) 2 =
        Fl.fin 1 ∧
      Fl.fin (1 : ℝ) ≠ Fl.fin (Real.sqrt 0) := by
  constructor
  · show fsqrt (dist_transform_2d_presqrt img3 3 1 (fun _ => oneScratch)
        (fun _ => oneScratch) 2) = Fl.fin 1
    have hp : dist_transform_2d_presqrt img3 3 1 (fun _ => oneScratch)
        (fun _ => oneScratch) 2 = Fl.fin 1 := by
      show dist_transform_axis
          (transpose_cpy (dist_transform_axis img3 3 (fun _ => oneScratch)) 3 1)
          1 (fun _ => oneScratch) ((2 % 3) * 1 + 2 / 3) = Fl.fin 1
      have ha : dist_transform_axis img3 3 (fun _ => oneScratch) 2 =
          Fl.fin 1 := by
        norm_num [dist_transform_axis, rowOf, img3, dist_transform_1d,
          oneScratch, findOffset, part1, part2, seekJ, backup,
          parabola_intersect, upd, Fl.isinf, Fl.add, Fl.sub, Fl.neg, Fl.div,
          Fl.blt, Fl.ble]
      norm_num [dist_transform_axis, rowOf, dist_transform_1d, transpose_cpy]
      exact ha
    rw [hp, fsqrt, if_neg (by norm_num)]
    norm_num
  · simp [Real.sqrt_zero]

/-! ## Claim C6 -/

/-- The `(unsigned char)` cast of a finite float known to lie in `[n, n+1)`
truncates to `n`. -/
lemma castUChar_eq_of_bounds (x : ℝ) (n : ℕ) (h1 : (n : ℝ) ≤ x)
    (h2 : x < n + 1) : castUChar (Fl.fin x) = n := by
  have hf : ⌊x⌋ = (n : ℤ) := by
    rw [Int.floor_eq_iff]
    constructor
    · push_cast
      exact h1
    · push_cast
      exact h2
  simp [castUChar, hf]

/-- Claim C6, counterexample: the quantizer truncates instead of rounding to
nearest.  For `v = -0.5`, `asymmetric = false`, `spread = 4` the exact remap
value is `((-0.5 + 4) * 255) / 8 = 111.5625`; the claim demands the rounded
byte 112, but the code's `(unsigned char)` cast truncates to 111. -/
theorem C6_counterexample :
    transform_float_to_byte (fun _ => Fl.fin (-(1 : ℝ) / 2)) 4 false 0 = 111 ∧
      (111 : ℕ) ≠ 112 := by
  constructor
  · show castUChar _ = 111
    norm_num [transform_float_to_byte, Fl.blt, Fl.sub, Fl.add, Fl.neg, Fl.mul,
      Fl.div]
    exact castUChar_eq_of_bounds _ 111 (by norm_num) (by norm_num)
  · omega

/-- The code's two-sided clamp (upper bound first) equals
`min s_max (max s_min x)` when `s_min ≤ s_max`. -/
lemma clamp_eq (x s_min s_max : ℝ) (h : s_min ≤ s_max) :
    (if Fl.blt (if Fl.blt (Fl.fin s_max) (Fl.fin x) = true then Fl.fin s_max
          else Fl.fin x) (Fl.fin s_min) = true then Fl.fin s_min
      else if Fl.blt (Fl.fin s_max) (Fl.fin x) = true then Fl.fin s_max
        else Fl.fin x) =
      Fl.fin (min s_max (max s_min x)) := by
  by_cases h1 : s_max < x
  · simp only [blt_fin_fin, decide_eq_true_eq, if_pos h1]
    rw [if_neg (not_lt.mpr h), max_eq_right (by linarith), min_eq_left h1.le]
  · simp only [blt_fin_fin, decide_eq_true_eq, if_neg h1]
    by_cases h2 : x < s_min
    · rw [if_pos h2, max_eq_left h2.le, min_eq_right h]
    · rw [if_neg h2, max_eq_right (not_lt.mp h2), min_eq_right (not_lt.mp h1)]

/-- Claim C6, amended: for every non-NaN signed-field value, spread > 0 and
either asymmetry setting, the quantizer clamps into the source range
(`[0, spread]` if asymmetric, `[-spread, spread]` otherwise; the infinities
saturate), remaps linearly onto `[0, 255]` and truncates toward zero (floor);
in particular `v = -0.5` with `asymmetric = true` yields byte 0. -/
theorem C6_theorem :
    (∀ (v : Fl ℝ) (spread : ℕ) (asymmetric : Bool), 0 < spread →
      v ≠ Fl.nan →
        transform_float_to_byte (fun _ => v) spread asymmetric 0 =
          quantize_spec v spread asymmetric) ∧
      transform_float_to_byte (fun _ => Fl.fin (-(1 : ℝ) / 2)) 4 true 0 = 0 := by
  constructor
  · intro v spread asym hs hv
    have hc : (0 : ℝ) < spread := by exact_mod_cast hs
    rcases v with x | _ | _ | _
    · -- finite input
      show castUChar _ = _
      simp only [transform_float_to_byte, quantize_spec]
      rcases asym with _ | _
      · simp only [Bool.false_eq_true, if_false]
        rw [clamp_eq x (-(spread : ℝ)) (spread : ℝ) (by linarith)]
        have hne : (spread : ℝ) - -(spread : ℝ) ≠ 0 := by
          intro hz
          nlinarith
        rw [sub_fin_fin, mul_fin_fin, div_fin_fin _ _ hne, add_fin_fin]
        simp only [castUChar]
        congr 2
        ring
      · simp only [if_true]
        rw [clamp_eq x 0 (spread : ℝ) hc.le]
        have hne : (spread : ℝ) - 0 ≠ 0 := by
          intro hz
          nlinarith
        rw [sub_fin_fin, mul_fin_fin, div_fin_fin _ _ hne, add_fin_fin]
        simp only [castUChar]
        congr 2
        ring
    · -- +inf saturates to 255
      show castUChar _ = _
      simp only [transform_float_to_byte, quantize_spec, blt_fin_inf, if_true]
      rcases asym with _ | _
      · simp only [Bool.false_eq_true, if_false]
        have hne : (spread : ℝ) - -(spread : ℝ) ≠ 0 := by
          intro hz
          nlinarith
        rw [if_neg (by simp only [blt_fin_fin, decide_eq_true_eq]; linarith)]
        rw [sub_fin_fin, mul_fin_fin, div_fin_fin _ _ hne, add_fin_fin]
        have heq : ((spread : ℝ) - -(spread : ℝ)) * (255 - 0) /
              ((spread : ℝ) - -(spread : ℝ)) + 0 = 255 := by
          field_simp
        rw [heq]
        simp [castUChar]
      · simp only [if_true]
        have hne : (spread : ℝ) - 0 ≠ 0 := by
          intro hz
          nlinarith
        rw [if_neg (by simp only [blt_fin_fin, decide_eq_true_eq]; linarith)]
        rw [sub_fin_fin, mul_fin_fin, div_fin_fin _ _ hne, add_fin_fin]
        have heq : ((spread : ℝ) - 0) * (255 - 0) / ((spread : ℝ) - 0) + 0 =
            255 := by
          field_simp
        rw [heq]
        simp [castUChar]
    · -- -inf saturates to 0
      show castUChar _ = _
      simp only [transform_float_to_byte, quantize_spec, blt_fin_ninf,
        Bool.false_eq_true, if_false, blt_ninf_fin, if_true]
      rcases asym with _ | _
      · simp only [Bool.false_eq_true, if_false]
        have hne : (spread : ℝ) - -(spread : ℝ) ≠ 0 := by
          intro hz
          nlinarith
        rw [sub_fin_fin, mul_fin_fin, div_fin_fin _ _ hne, add_fin_fin]
        have heq : (-(spread : ℝ) - -(spread : ℝ)) * (255 - 0) /
              ((spread : ℝ) - -(spread : ℝ)) + 0 = 0 := by
          rw [sub_self]
          ring
        rw [heq]
        simp [castUChar]
      · simp only [if_true]
        have hne : (spread : ℝ) - 0 ≠ 0 := by
          intro hz
          nlinarith
        rw [sub_fin_fin, mul_fin_fin, div_fin_fin _ _ hne, add_fin_fin]
        have heq : ((0 : ℝ) - 0) * (255 - 0) / ((spread : ℝ) - 0) + 0 = 0 := by
          rw [sub_self]
          ring
        rw [heq]
        simp [castUChar]
    · exact absurd rfl hv
  · show castUChar _ = 0
    norm_num [transform_float_to_byte, Fl.div]
    exact castUChar_eq_of_bounds _ 0 (by norm_num) (by norm_num)

/-- Claim C6, witness: the amended equality applied at `v = -0.5`,
`spread = 4`, `asymmetric = true`. -/
theorem C6_witness :
    (0 < 4 ∧ Fl.fin (-(1 : ℝ) / 2) ≠ Fl.nan) ∧
      transform_float_to_byte (fun _ => Fl.fin (-(1 : ℝ) / 2)) 4 true 0 =
        quantize_spec (Fl.fin (-(1 : ℝ) / 2)) 4 true :=
  ⟨⟨by omega, by simp⟩,
    C6_theorem.1 (Fl.fin (-(1 : ℝ) / 2)) 4 true (by omega) (by simp)⟩

/-! ## Claim C7 -/

/-- Claim C7, counterexample: on the fields `F_in = [0]`, `F_out = [0.5]` the
combiner outputs `0 - (0.5 - 1) = 0.5`, while the claimed formula
`d_in - max(0, d_out - 1)` gives `0`: the code applies the bias to every
positive `d_out`, including `d_out` in `(0, 1)` where `max` would clamp. -/
theorem C7_counterexample :
    transform_float_sub (fun _ => Fl.fin (0 : ℝ)) (fun _ => Fl.fin (1 / 2)) 0 =
        Fl.fin (1 / 2) ∧
      combine_spec (Fl.fin 0) (Fl.fin (1 / 2)) = Fl.fin 0 ∧
      (1 : ℝ) / 2 ≠ 0 := by
  refine ⟨?_, ?_, by norm_num⟩
  · norm_num [transform_float_sub, Fl.blt, Fl.sub, Fl.add, Fl.neg]
  · norm_num [combine_spec, fmax, Fl.ble, Fl.sub, Fl.add, Fl.neg]

/-- Claim C7, amended: the combiner computes
`s[p] = d_in - (d_out > 0 ? d_out - 1 : d_out)`, which agrees with the
claimed `s[p] = d_in - max(0, d_out - 1)` whenever `d_out` is `0`, at least
`1`, or `+inf` — i.e. for every value the distance transform can feed it —
and the 1-pixel bias is never applied to the `d_in` term. -/
theorem C7_theorem (d_in d_out : Fl ℝ)
    (h : d_out = Fl.fin 0 ∨ (∃ x : ℝ, d_out = Fl.fin x ∧ 1 ≤ x) ∨
      d_out = Fl.inf) :
    transform_float_sub (fun _ => d_in) (fun _ => d_out) 0 =
      combine_spec d_in d_out := by
  rcases h with h | ⟨x, rfl, hx⟩ | h
  · subst h
    norm_num [transform_float_sub, combine_spec, fmax, Fl.blt, Fl.ble, Fl.sub,
      Fl.add, Fl.neg]
  · have h0 : (0 : ℝ) < x := by linarith
    have h1 : (0 : ℝ) ≤ x + -1 := by linarith
    simp only [transform_float_sub, combine_spec, fmax, Fl.blt, Fl.ble,
      Fl.sub, Fl.add, Fl.neg, decide_eq_true_eq]
    rw [if_pos h0, if_pos h1]
  · subst h
    norm_num [transform_float_sub, combine_spec, fmax, Fl.blt, Fl.ble, Fl.sub,
      Fl.add, Fl.neg]

/-- Claim C7, witness: the amended equality at `d_in = 0`, `d_out = 1`. -/
theorem C7_witness :
    (Fl.fin (1 : ℝ) = Fl.fin 0 ∨ (∃ x : ℝ, Fl.fin (1 : ℝ) = Fl.fin x ∧ 1 ≤ x) ∨
        Fl.fin (1 : ℝ) = Fl.inf) ∧
      transform_float_sub (fun _ => Fl.fin (0 : ℝ)) (fun _ => Fl.fin 1) 0 =
        combine_spec (Fl.fin 0) (Fl.fin 1) :=
  ⟨Or.inr (Or.inl ⟨1, rfl, le_refl 1⟩),
    C7_theorem (Fl.fin 0) (Fl.fin 1) (Or.inr (Or.inl ⟨1, rfl, le_refl 1⟩))⟩

/-! ## Claim C10 -/

/-- Claim C10, confirmed: `read_filetype` returns the first of png, bmp, jpg,
tga whose three characters are a prefix of the string, else `FT_NONE`; in
particular "jpeg" is not recognized (and `FT_NONE` is written as PNG by
`main`'s output switch) while "jpgx" is read as JPG. -/
theorem C10_theorem :
    (∀ s : List Char, read_filetype s = read_filetype_spec s) ∧
      read_filetype ['j', 'p', 'e', 'g'] = .FT_NONE ∧
      written_filetype (read_filetype ['j', 'p', 'e', 'g']) = .FT_PNG ∧
      read_filetype ['j', 'p', 'g', 'x'] = .FT_JPG := by
  refine ⟨?_, by decide, by decide, by decide⟩
  intro s
  simp only [read_filetype, read_filetype_spec, strncmpEq_three]

end ChaqSdf
